import Mathlib

/-!
Shallow embedding of `tke-workload-metrics` (src/main.go) and verification of
its specification claims.

Modelling conventions:
* Go `float64` metric values are modelled as `ℚ`: the metric reduction only
  compares and selects values, never performs float arithmetic, and comparison
  of (non-NaN) floats agrees with the order of their rational values.
* Go pointers that may be `nil` (`*string`, `*float64`) are modelled as
  `Option`.
* The Go map `map[string]float64` with zero-value reads is modelled as a total
  function `String → ℚ` whose default is `0`.
-/

namespace TkeMetrics

/-- The `Config` struct of src/main.go (lines 32-38): five YAML-loaded string
fields. Field names follow the Go struct fields. -/
structure Config where
  Region : String
  ClusterID : String
  Namespace : String
  SecretID : String
  SecretKey : String
deriving DecidableEq

/-- `validate` of src/main.go (lines 202-219): checks the five fields for
emptiness in the fixed order region, clusterID, namespace, secretID,
secretKey, returning the first failure message, or `none` for success
(Go `nil` error). -/
def validate (config : Config) : Option String :=
  if config.Region = "" then some "region is required"
  else if config.ClusterID = "" then some "clusterID is required"
  else if config.Namespace = "" then some "namespace is required"
  else if config.SecretID = "" then some "secretID is required"
  else if config.SecretKey = "" then some "secretKey is required"
  else none

/-- One point of a monitoring time series: the SDK type
`monitor.Point` with `Timestamp *uint64` and `Value *float64`; only
`Value` is read by src/main.go (line 189). -/
structure Point where
  Timestamp : Option Nat
  Value : Option ℚ
deriving DecidableEq

/-- The SDK type `monitor.MetricDataPoint`: one series of points.  The
`Dimensions` field is never read by src/main.go, so it is omitted. -/
structure MetricDataPoint where
  Values : List Point
deriving DecidableEq

/-- The SDK type `monitor.MetricData`: a named metric with its series.
src/main.go reads `MetricName` and `Points` (lines 182-196). -/
structure MetricData where
  MetricName : Option String
  Points : List MetricDataPoint
deriving DecidableEq

/-- The CPU metric name requested at src/main.go line 133. -/
def cpuMetricName : String := "K8sWorkloadRateCpuCoreUsedRequestMax"

/-- The memory metric name requested at src/main.go line 133. -/
def memMetricName : String := "K8sWorkloadRateMemWorkingSetBytesRequestMax"

/-- The inner loop of `getDeploymentMetrics` (src/main.go lines 187-194):
starting from the accumulator `maxValue`, scan the points of a series and
replace the accumulator by any strictly larger non-nil value. -/
def foldMaxValue : List Point → ℚ → ℚ
  | [], maxValue => maxValue
  | point :: rest, maxValue =>
    match point.Value with
    | none => foldMaxValue rest maxValue
    | some v => foldMaxValue rest (if v > maxValue then v else maxValue)

/-- Update of the Go result map `result[name] = maxValue`
(src/main.go line 196), on the total-function model of the map. -/
def updateMap (result : String → ℚ) (name : String) (maxValue : ℚ) : String → ℚ :=
  fun key => if key = name then maxValue else result key

/-- The metric loop of `getDeploymentMetrics` (src/main.go lines 182-197):
skip a metric whose name is nil, whose point list is empty, or whose first
series has no values; otherwise store the max of the first series under the
name of the metric. -/
def processMetrics : List MetricData → (String → ℚ) → (String → ℚ)
  | [], result => result
  | metric :: rest, result =>
    match metric.MetricName, metric.Points with
    | some name, p :: _ =>
      match p.Values with
      | [] => processMetrics rest result
      | _ :: _ => processMetrics rest (updateMap result name (foldMaxValue p.Values 0))
    | some _, [] => processMetrics rest result
    | none, _ => processMetrics rest result

/-- The pure response reduction of `getDeploymentMetrics`
(src/main.go lines 175-199): initialise both requested metrics to `0`,
run the metric loop, and read the two requested names back out. -/
def reduceResponse (metricRawData : List MetricData) : ℚ × ℚ :=
  let result := processMetrics metricRawData
    (updateMap (updateMap (fun _ => 0) cpuMetricName 0) memMetricName 0)
  (result cpuMetricName, result memMetricName)

/-- The contribution a single response entry makes to the result map at `key`:
`some` of the first-series maximum of an entry when the entry is not skipped by
the loop (src/main.go line 183) and its name is `key`, else `none`. -/
def entryContrib (key : String) (metric : MetricData) : Option ℚ :=
  match metric.MetricName, metric.Points with
  | some name, p :: _ =>
    match p.Values with
    | [] => none
    | _ :: _ => if name = key then some (foldMaxValue p.Values 0) else none
  | some _, [] => none
  | none, _ => none

/-- Last element of a list, or the accumulator when the list is empty:
the value left in a map cell after a sequence of overwrites. -/
def lastOr : ℚ → List ℚ → ℚ
  | acc, [] => acc
  | _, v :: rest => lastOr v rest

lemma lastOr_append (acc : ℚ) (l1 l2 : List ℚ) :
    lastOr acc (l1 ++ l2) = lastOr (lastOr acc l1) l2 := by
  induction l1 generalizing acc with
  | nil => rfl
  | cons v rest ih =>
    simp only [List.cons_append, lastOr]
    exact ih v

/-- The metric loop is, cell by cell, the sequence of overwrites by the
entries that contribute to that cell. -/
lemma processMetrics_apply (d : List MetricData) (result : String → ℚ) (key : String) :
    processMetrics d result key = lastOr (result key) (d.filterMap (entryContrib key)) := by
  induction d generalizing result with
  | nil => rfl
  | cons metric rest ih =>
    rcases metric with ⟨mn, pts⟩
    rcases mn with _ | name
    · simpa [processMetrics, entryContrib] using ih result
    rcases pts with _ | ⟨p, ps⟩
    · simpa [processMetrics, entryContrib] using ih result
    rcases p with ⟨vals⟩
    rcases vals with _ | ⟨v0, vs⟩
    · simpa [processMetrics, entryContrib] using ih result
    by_cases h : name = key
    · subst h
      simp only [processMetrics, entryContrib, List.filterMap_cons, if_pos rfl]
      rw [ih]
      simp [updateMap, lastOr]
    · simp only [processMetrics, entryContrib, List.filterMap_cons, if_neg h]
      rw [ih]
      simp [updateMap, Ne.symm h]

lemma cpu_ne_mem : cpuMetricName ≠ memMetricName := by decide

/-- `reduceResponse` in terms of per-key contribution streams. -/
lemma reduceResponse_eq (d : List MetricData) :
    reduceResponse d =
      (lastOr 0 (d.filterMap (entryContrib cpuMetricName)),
       lastOr 0 (d.filterMap (entryContrib memMetricName))) := by
  have h1 : (updateMap (updateMap (fun _ => 0) cpuMetricName 0) memMetricName 0)
      cpuMetricName = 0 := by
    simp [updateMap]
  have h2 : (updateMap (updateMap (fun _ => 0) cpuMetricName 0) memMetricName 0)
      memMetricName = 0 := by
    simp [updateMap]
  simp only [reduceResponse, processMetrics_apply, h1, h2]

lemma entryContrib_name {key : String} {metric : MetricData} {v : ℚ}
    (h : entryContrib key metric = some v) : metric.MetricName = some key := by
  rcases metric with ⟨mn, pts⟩
  rcases mn with _ | name
  · simp [entryContrib] at h
  · rcases pts with _ | ⟨p, ps⟩
    · simp [entryContrib] at h
    · rcases hv : p.Values with _ | ⟨v0, vs⟩
      · simp [entryContrib, hv] at h
      · simp only [entryContrib, hv] at h
        by_cases hk : name = key
        · simp [hk]
        · simp [hk] at h

/-- The wording of the spec for the series reduction ("scan the first series
values and take the maximum value seen (ignoring absent/null values),
defaulting to 0 if all values are absent"), stated from the spec for
comparison with `foldMaxValue` from the code. -/
def specSeriesMax (values : List (Option ℚ)) : ℚ :=
  match values.filterMap id with
  | [] => 0
  | v :: rest => rest.foldl max v

lemma ite_gt_eq_max (v acc : ℚ) : (if v > acc then v else acc) = max acc v := by
  rcases le_or_lt v acc with h | h
  · rw [if_neg (not_lt_of_le h), max_eq_left h]
  · rw [if_pos h, max_eq_right h.le]

lemma foldMaxValue_eq_foldl (values : List Point) (acc : ℚ) :
    foldMaxValue values acc = (values.filterMap Point.Value).foldl max acc := by
  induction values generalizing acc with
  | nil => rfl
  | cons point rest ih =>
    rcases point with ⟨ts, pv⟩
    rcases pv with _ | v
    · simpa [foldMaxValue, List.filterMap_cons] using ih acc
    · simp only [foldMaxValue, ite_gt_eq_max, List.filterMap_cons, List.foldl_cons]
      exact ih (max acc v)

lemma le_foldl_max (l : List ℚ) (acc : ℚ) : acc ≤ l.foldl max acc := by
  induction l generalizing acc with
  | nil => exact le_refl acc
  | cons v rest ih => exact le_trans (le_max_left acc v) (ih (max acc v))

lemma foldl_max_max (l : List ℚ) (c a : ℚ) :
    l.foldl max (max c a) = max c (l.foldl max a) := by
  induction l generalizing a with
  | nil => rfl
  | cons b rest ih =>
    simp only [List.foldl_cons, max_assoc]
    exact ih (max a b)

/-- The running maximum of the code over a series, started at `0`, is the spec
series maximum clamped below at `0`. -/
lemma foldMaxValue_zero_eq (values : List Point) :
    foldMaxValue values 0 = max 0 (specSeriesMax (values.map Point.Value)) := by
  rw [foldMaxValue_eq_foldl]
  have hfm : (values.map Point.Value).filterMap id = values.filterMap Point.Value := by
    rw [List.filterMap_map]
    rfl
  rcases hl : values.filterMap Point.Value with _ | ⟨v, rest⟩
  · simp [specSeriesMax, hfm, hl]
  · simp only [specSeriesMax, hfm, hl, List.foldl_cons]
    have h0 : max (0 : ℚ) v = max 0 (max 0 v) := by
      rw [← max_assoc, max_self]
    calc rest.foldl max (max 0 v)
        = rest.foldl max (max 0 (max 0 v)) := by rw [← h0]
      _ = max 0 (rest.foldl max (max 0 v)) := foldl_max_max rest 0 (max 0 v)
      _ = max 0 (max 0 (rest.foldl max v)) := by rw [foldl_max_max rest 0 v]
      _ = max 0 (rest.foldl max v) := by rw [← max_assoc, max_self]

/-- A response entry carrying one series under the given metric name. -/
def mkSingleSeriesEntry (name : String) (values : List Point) : MetricData :=
  { MetricName := some name, Points := [{ Values := values }] }

/-- A series point with the given non-nil value. -/
def mkValuePoint (v : ℚ) : Point := { Timestamp := some 0, Value := some v }

/-- A series point whose value pointer is nil. -/
def nullValuePoint : Point := { Timestamp := some 0, Value := none }

lemma reduce_single_cpu (values : List Point) :
    reduceResponse [mkSingleSeriesEntry cpuMetricName values] =
      (max 0 (specSeriesMax (values.map Point.Value)), 0) := by
  rw [reduceResponse_eq]
  rcases values with _ | ⟨v0, vs⟩
  · simp [mkSingleSeriesEntry, entryContrib, lastOr, specSeriesMax]
  · simp [mkSingleSeriesEntry, entryContrib, lastOr, cpu_ne_mem, foldMaxValue_zero_eq]

lemma reduce_single_mem (values : List Point) :
    reduceResponse [mkSingleSeriesEntry memMetricName values] =
      (0, max 0 (specSeriesMax (values.map Point.Value))) := by
  rw [reduceResponse_eq]
  rcases values with _ | ⟨v0, vs⟩
  · simp [mkSingleSeriesEntry, entryContrib, lastOr, specSeriesMax]
  · simp [mkSingleSeriesEntry, entryContrib, lastOr, Ne.symm cpu_ne_mem, foldMaxValue_zero_eq]

/-- C3: `validate` succeeds exactly when all five required fields are
non-empty, and a failure names the first empty field in the fixed order
region, clusterID, namespace, secretID, secretKey. -/
theorem C3_validate_first_empty_field :
    (∀ config : Config,
      validate config = none ↔
        (config.Region ≠ "" ∧ config.ClusterID ≠ "" ∧ config.Namespace ≠ "" ∧
         config.SecretID ≠ "" ∧ config.SecretKey ≠ "")) ∧
    (∀ config : Config,
      validate config = some "region is required" ↔ config.Region = "") ∧
    (∀ config : Config,
      validate config = some "clusterID is required" ↔
        (config.Region ≠ "" ∧ config.ClusterID = "")) ∧
    (∀ config : Config,
      validate config = some "namespace is required" ↔
        (config.Region ≠ "" ∧ config.ClusterID ≠ "" ∧ config.Namespace = "")) ∧
    (∀ config : Config,
      validate config = some "secretID is required" ↔
        (config.Region ≠ "" ∧ config.ClusterID ≠ "" ∧ config.Namespace ≠ "" ∧
         config.SecretID = "")) ∧
    (∀ config : Config,
      validate config = some "secretKey is required" ↔
        (config.Region ≠ "" ∧ config.ClusterID ≠ "" ∧ config.Namespace ≠ "" ∧
         config.SecretID ≠ "" ∧ config.SecretKey = "")) := by
  refine ⟨?_, ?_, ?_, ?_, ?_, ?_⟩ <;> intro config <;>
    simp only [validate] <;> split_ifs <;> simp_all

/-- A CPU-metric entry whose only (non-nil) value is negative. -/
def negativeCpuEntry : MetricData :=
  mkSingleSeriesEntry cpuMetricName [mkValuePoint (-1)]

/-- The example series of the spec [0.2, 0.8, 0.5, null]. -/
def exampleSeries : List Point :=
  [mkValuePoint (1/5), mkValuePoint (4/5), mkValuePoint (1/2), nullValuePoint]

/-- C1, counterexample: on a first series whose only present value is `-1`,
the fetcher returns `0` for that metric, while the claimed reduction — the
maximum value seen, ignoring nulls, defaulting to `0` only when all values
are absent — is `-1`. -/
theorem C1_counterexample :
    (reduceResponse [negativeCpuEntry]).1 = 0 ∧
    specSeriesMax [some (-1)] = -1 ∧
    (reduceResponse [negativeCpuEntry]).1 ≠ specSeriesMax [some (-1)] := by
  refine ⟨?_, by decide, by decide⟩
  decide

/-- C1, amended: the fetcher reduces a named metric with data points to the
maximum of `0` and the values seen scanning the first point-series (ignoring
null/absent values) — the maximum value seen whenever that is nonnegative,
and `0` when all values are absent; for [0.2, 0.8, 0.5, null] it returns
0.8. -/
theorem C1_first_series_clamped_max :
    (∀ (values : List Point) (acc : ℚ),
      foldMaxValue values acc = (values.filterMap Point.Value).foldl max acc) ∧
    (∀ values : List Point,
      reduceResponse [mkSingleSeriesEntry cpuMetricName values] =
        (max 0 (specSeriesMax (values.map Point.Value)), 0)) ∧
    (∀ values : List Point,
      reduceResponse [mkSingleSeriesEntry memMetricName values] =
        (0, max 0 (specSeriesMax (values.map Point.Value)))) ∧
    reduceResponse [mkSingleSeriesEntry cpuMetricName exampleSeries] = (4/5, 0) := by
  refine ⟨foldMaxValue_eq_foldl, reduce_single_cpu, reduce_single_mem, ?_⟩
  rw [reduce_single_cpu]
  have hs : specSeriesMax (exampleSeries.map Point.Value) = 4/5 := by
    simp only [exampleSeries, mkValuePoint, nullValuePoint, List.map_cons, List.map_nil,
      specSeriesMax, List.filterMap_cons, id_eq, List.filterMap_nil,
      List.foldl_cons, List.foldl_nil]
    rw [max_eq_right (by norm_num : (1:ℚ)/5 ≤ 4/5), max_eq_left (by norm_num : (1:ℚ)/2 ≤ 4/5)]
  rw [hs, max_eq_right (by norm_num : (0:ℚ) ≤ 4/5)]

/-- C5: an entry with a nil metric name or an empty point list is skipped:
removing it from the response leaves the result unchanged, and a response
consisting only of such an entry yields 0.0 for both metrics. -/
theorem C5_skip_unnamed_or_pointless :
    (∀ (pre post : List MetricData) (metric : MetricData),
      (metric.MetricName = none ∨ metric.Points = []) →
      reduceResponse (pre ++ metric :: post) = reduceResponse (pre ++ post)) ∧
    (∀ metric : MetricData,
      (metric.MetricName = none ∨ metric.Points = []) →
      reduceResponse [metric] = (0, 0)) := by
  have hskip : ∀ (key : String) (metric : MetricData),
      (metric.MetricName = none ∨ metric.Points = []) →
      entryContrib key metric = none := by
    intro key metric h
    rcases metric with ⟨mn, pts⟩
    rcases h with h | h
    · rw [show mn = none from h]
      rfl
    · rw [show pts = [] from h]
      rcases mn with _ | name <;> rfl
  have hmain : ∀ (pre post : List MetricData) (metric : MetricData),
      (metric.MetricName = none ∨ metric.Points = []) →
      reduceResponse (pre ++ metric :: post) = reduceResponse (pre ++ post) := by
    intro pre post metric h
    rw [reduceResponse_eq, reduceResponse_eq]
    simp [List.filterMap_append, List.filterMap_cons, hskip cpuMetricName metric h,
      hskip memMetricName metric h]
  refine ⟨hmain, fun metric h => ?_⟩
  have := hmain [] [] metric h
  simpa using this

/-- A CPU-named entry with an empty point list. -/
def pointlessEntry : MetricData := { MetricName := some cpuMetricName, Points := [] }

/-- C5 witness: a CPU-named entry with no data points is skipped and the
response containing only it reduces to (0, 0). -/
theorem C5_skip_witness :
    (pointlessEntry.MetricName = none ∨ pointlessEntry.Points = []) ∧
    reduceResponse [pointlessEntry] = (0, 0) :=
  ⟨Or.inr rfl, C5_skip_unnamed_or_pointless.2 pointlessEntry (Or.inr rfl)⟩

/-- A CPU-metric entry whose present values are all negative. -/
def allNegativeCpuEntry : MetricData :=
  mkSingleSeriesEntry cpuMetricName [mkValuePoint (-1), mkValuePoint (-2)]

lemma entryContrib_nonneg {key : String} {metric : MetricData} {v : ℚ}
    (h : entryContrib key metric = some v) : 0 ≤ v := by
  rcases metric with ⟨mn, pts⟩
  rcases mn with _ | name
  · simp [entryContrib] at h
  rcases pts with _ | ⟨p, ps⟩
  · simp [entryContrib] at h
  rcases p with ⟨vals⟩
  rcases vals with _ | ⟨v0, vs⟩
  · simp [entryContrib] at h
  by_cases hk : name = key
  · have hfold : v = foldMaxValue (v0 :: vs) 0 := by
      simp [entryContrib, hk] at h
      exact h.symm
    rw [hfold, foldMaxValue_eq_foldl]
    exact le_foldl_max _ _
  · simp [entryContrib, hk] at h

lemma lastOr_nonneg {acc : ℚ} {l : List ℚ} (hacc : 0 ≤ acc)
    (hl : ∀ v ∈ l, 0 ≤ v) : 0 ≤ lastOr acc l := by
  induction l generalizing acc with
  | nil => exact hacc
  | cons v rest ih =>
    exact ih (hl v (List.mem_cons_self v rest))
      (fun w hw => hl w (List.mem_cons_of_mem v hw))

/-- C9: both components of the reduced response are nonnegative for every
response, because the accumulator starts at 0; in particular a series whose
present values are all negative reports 0, not its (negative) maximum. -/
theorem C9_result_nonneg :
    (∀ d : List MetricData,
      0 ≤ (reduceResponse d).1 ∧ 0 ≤ (reduceResponse d).2) ∧
    reduceResponse [allNegativeCpuEntry] = (0, 0) := by
  refine ⟨fun d => ?_, by decide⟩
  rw [reduceResponse_eq]
  constructor <;>
    exact lastOr_nonneg le_rfl (fun v hv => by
      obtain ⟨metric, _, hc⟩ := List.mem_filterMap.mp hv
      exact entryContrib_nonneg hc)

lemma reduce_component_last {key : String} (pre post : List MetricData)
    (metric : MetricData) (v : ℚ)
    (hc : entryContrib key metric = some v)
    (hpost : ∀ m2 ∈ post, entryContrib key m2 = none) :
    lastOr 0 ((pre ++ metric :: post).filterMap (entryContrib key)) = v := by
  rw [List.filterMap_append, List.filterMap_cons, hc]
  have hnil : post.filterMap (entryContrib key) = [] := by
    rw [List.filterMap_eq_nil_iff]
    exact hpost
  rw [hnil, lastOr_append]
  rfl

/-- A CPU-metric entry whose series maximum is 5. -/
def cpuSeriesFive : MetricData := mkSingleSeriesEntry cpuMetricName [mkValuePoint 5]

/-- A CPU-metric entry whose series maximum is 3. -/
def cpuSeriesThree : MetricData := mkSingleSeriesEntry cpuMetricName [mkValuePoint 3]

/-- C10: duplicate metric names overwrite left to right, so each requested
metric reports the maximum of the last contributing entry of that name; two
CPU entries with maxima 5 then 3 report 3, not 5. -/
theorem C10_last_duplicate_wins :
    (∀ (pre post : List MetricData) (metric : MetricData) (v : ℚ),
      entryContrib cpuMetricName metric = some v →
      (∀ m2 ∈ post, entryContrib cpuMetricName m2 = none) →
      (reduceResponse (pre ++ metric :: post)).1 = v) ∧
    (∀ (pre post : List MetricData) (metric : MetricData) (v : ℚ),
      entryContrib memMetricName metric = some v →
      (∀ m2 ∈ post, entryContrib memMetricName m2 = none) →
      (reduceResponse (pre ++ metric :: post)).2 = v) ∧
    reduceResponse [cpuSeriesFive, cpuSeriesThree] = (3, 0) := by
  refine ⟨?_, ?_, by decide⟩ <;>
    intro pre post metric v hc hpost <;>
    rw [reduceResponse_eq] <;>
    exact reduce_component_last pre post metric v hc hpost

/-- C10 witness: in the concrete two-entry duplicate response, the second
CPU entry is the last contributor and the theorem yields its maximum 3. -/
theorem C10_last_duplicate_witness :
    entryContrib cpuMetricName cpuSeriesThree = some 3 ∧
    (∀ m2 ∈ ([] : List MetricData), entryContrib cpuMetricName m2 = none) ∧
    (reduceResponse ([cpuSeriesFive] ++ cpuSeriesThree :: [])).1 = 3 :=
  ⟨by decide, by simp, C10_last_duplicate_wins.1 [cpuSeriesFive] [] cpuSeriesThree 3
    (by decide) (by simp)⟩

/-- The premise of the permutation property in the spec: every entry of the
response is named and the names are pairwise distinct. -/
def namedDistinct (d : List MetricData) : Prop :=
  (∀ metric ∈ d, metric.MetricName ≠ none) ∧ (d.map MetricData.MetricName).Nodup

instance (d : List MetricData) : Decidable (namedDistinct d) := by
  unfold namedDistinct
  infer_instance

lemma contribs_length_le_one {d : List MetricData} (key : String)
    (h : (d.map MetricData.MetricName).Nodup) :
    (d.filterMap (entryContrib key)).length ≤ 1 := by
  induction d with
  | nil => simp
  | cons metric rest ih =>
    rw [List.map_cons, List.nodup_cons] at h
    rcases hc : entryContrib key metric with _ | v
    · simpa [List.filterMap_cons, hc] using ih h.2
    · have hname := entryContrib_name hc
      have hnil : rest.filterMap (entryContrib key) = [] := by
        rw [List.filterMap_eq_nil_iff]
        intro m2 hm2
        rcases hc2 : entryContrib key m2 with _ | w
        · rfl
        · exfalso
          apply h.1
          have hmem : m2.MetricName ∈ rest.map MetricData.MetricName :=
            List.mem_map_of_mem MetricData.MetricName hm2
          rw [entryContrib_name hc2] at hmem
          rw [hname]
          exact hmem
      simp [List.filterMap_cons, hc, hnil]

lemma contribs_perm_eq {d d' : List MetricData} (key : String)
    (hperm : List.Perm d d') (h : (d.map MetricData.MetricName).Nodup) :
    d.filterMap (entryContrib key) = d'.filterMap (entryContrib key) := by
  have hp : List.Perm (d.filterMap (entryContrib key)) (d'.filterMap (entryContrib key)) :=
    hperm.filterMap _
  have hlen := contribs_length_le_one key h
  rcases hl : d.filterMap (entryContrib key) with _ | ⟨v, rest⟩
  · rw [hl] at hp
    exact (hp.symm.eq_nil).symm
  · rw [hl] at hp hlen
    rcases rest with _ | ⟨w, rest2⟩
    · exact List.singleton_perm.mp hp
    · simp at hlen

lemma entryContrib_other {key : String} {metric : MetricData}
    (h : metric.MetricName ≠ some key) : entryContrib key metric = none := by
  rcases metric with ⟨mn, pts⟩
  rcases mn with _ | name
  · rcases pts with _ | ⟨p, ps⟩ <;> rfl
  rcases pts with _ | ⟨p, ps⟩
  · rfl
  rcases p with ⟨vals⟩
  rcases vals with _ | ⟨v0, vs⟩
  · rfl
  have hne : name ≠ key := fun hk => h (by rw [hk])
  simp [entryContrib, hne]

/-- C4: selection is by metric name, not position: permuting a response whose
entries are named with pairwise distinct names leaves the result unchanged,
and an entry named neither of the two requested metric names never affects
the result. -/
theorem C4_selection_by_name :
    (∀ d d' : List MetricData,
      List.Perm d d' → namedDistinct d → reduceResponse d = reduceResponse d') ∧
    (∀ (pre post : List MetricData) (metric : MetricData),
      metric.MetricName ≠ some cpuMetricName →
      metric.MetricName ≠ some memMetricName →
      reduceResponse (pre ++ metric :: post) = reduceResponse (pre ++ post)) := by
  constructor
  · intro d d' hperm hd
    rw [reduceResponse_eq, reduceResponse_eq,
      contribs_perm_eq cpuMetricName hperm hd.2,
      contribs_perm_eq memMetricName hperm hd.2]
  · intro pre post metric hcpu hmem
    rw [reduceResponse_eq, reduceResponse_eq]
    simp [List.filterMap_append, List.filterMap_cons,
      entryContrib_other hcpu, entryContrib_other hmem]

/-- A memory-metric entry used in the C4 witness. -/
def memSeriesOne : MetricData := mkSingleSeriesEntry memMetricName [mkValuePoint 1]

/-- C4 witness: swapping the two distinct-named entries of a concrete
response leaves the reduced result unchanged. -/
theorem C4_selection_witness :
    List.Perm [memSeriesOne, cpuSeriesThree] [cpuSeriesThree, memSeriesOne] ∧
    namedDistinct [memSeriesOne, cpuSeriesThree] ∧
    reduceResponse [memSeriesOne, cpuSeriesThree] =
      reduceResponse [cpuSeriesThree, memSeriesOne] :=
  ⟨List.Perm.swap cpuSeriesThree memSeriesOne [], by decide,
    C4_selection_by_name.1 [memSeriesOne, cpuSeriesThree] [cpuSeriesThree, memSeriesOne]
      (List.Perm.swap cpuSeriesThree memSeriesOne []) (by decide)⟩

/-- Outcome of the SDK call `client.DescribeStatisticData` as observed by
src/main.go lines 162-169: a typed `*errors.TencentCloudSDKError`, any other
non-nil error, or a successful response carrying `Response.Data`. -/
inductive APIResult where
  | sdkError (msg : String)
  | otherError (msg : String)
  | success (data : List MetricData)
deriving DecidableEq

/-- Result of one `getDeploymentMetrics` call: either the process is
terminated by `klog.Fatal`, or a (cpu, mem) pair is returned. -/
inductive FetchResult where
  | fatal (msg : String)
  | value (cpu mem : ℚ)
deriving DecidableEq

/-- `getDeploymentMetrics` (src/main.go lines 162-199) keyed on the SDK
outcome of the call: a typed API error logs a warning and returns (0, 0); any
other non-nil error calls `klog.Fatal`; a successful response is reduced. -/
def getDeploymentMetrics (r : APIResult) : FetchResult :=
  match r with
  | .sdkError _ => .value 0 0
  | .otherError msg => .fatal msg
  | .success data => .value (reduceResponse data).1 (reduceResponse data).2

/-- The deployment loop of `main` (src/main.go lines 110-113): the metrics call of each listed
deployment yields one CSV data row, unless a fatal error
terminates the process; returns the rows written and whether the run died. -/
def runDeployments : List (String × APIResult) → List (String × ℚ × ℚ) × Bool
  | [] => ([], false)
  | (name, r) :: rest =>
    match getDeploymentMetrics r with
    | .fatal _ => ([], true)
    | .value cpu mem =>
      ((name, cpu, mem) :: (runDeployments rest).1, (runDeployments rest).2)

/-- C2: a typed API error is soft — it yields a (0, 0) row for that
deployment and the loop continues with the remaining deployments unchanged —
while any other non-nil error terminates the run immediately, producing no
further rows. -/
theorem C2_soft_api_error_hard_other_error :
    (∀ msg : String,
      getDeploymentMetrics (APIResult.sdkError msg) = FetchResult.value 0 0) ∧
    (∀ msg : String,
      getDeploymentMetrics (APIResult.otherError msg) = FetchResult.fatal msg) ∧
    (∀ (name msg : String) (rest : List (String × APIResult)),
      runDeployments ((name, APIResult.sdkError msg) :: rest) =
        ((name, 0, 0) :: (runDeployments rest).1, (runDeployments rest).2)) ∧
    (∀ (name msg : String) (rest : List (String × APIResult)),
      runDeployments ((name, APIResult.otherError msg) :: rest) = ([], true)) :=
  ⟨fun _ => rfl, fun _ => rfl, fun _ _ _ => rfl, fun _ _ _ => rfl⟩

/-- The SDK type `monitor.MidQueryCondition` as populated by src/main.go. -/
structure MidQueryCondition where
  Key : String
  Operator : String
  Value : List String
deriving DecidableEq

/-- The fields of the SDK request `monitor.DescribeStatisticDataRequest`
that src/main.go populates (lines 129-159). -/
structure DescribeStatisticDataRequest where
  Module : String
  Namespace : String
  MetricNames : List String
  Conditions : List MidQueryCondition
  Period : Nat
  StartTime : String
  EndTime : String
deriving DecidableEq

/-- The request construction of `getDeploymentMetrics`
(src/main.go lines 129-159). -/
def buildRequest (config : Config) (deploymentName startTime endTime : String) :
    DescribeStatisticDataRequest :=
  { Module := "monitor"
    Namespace := "QCE/TKE2"
    MetricNames := [cpuMetricName, memMetricName]
    Conditions :=
      [{ Key := "tke_cluster_instance_id", Operator := "=", Value := [config.ClusterID] },
       { Key := "namespace", Operator := "=", Value := [config.Namespace] },
       { Key := "workload_kind", Operator := "=", Value := ["Deployment"] },
       { Key := "workload_name", Operator := "=", Value := [deploymentName] }]
    Period := 3600
    StartTime := startTime
    EndTime := endTime }

/-- C6: for every deployment and window the query has exactly four equality
filter conditions — cluster id, namespace, workload kind "Deployment", and
the workload name — requests exactly the two named CPU and memory
usage-vs-request-max metrics, and uses a 3600-second period. -/
theorem C6_request_shape :
    ∀ (config : Config) (deploymentName startTime endTime : String),
      (buildRequest config deploymentName startTime endTime).Conditions.length = 4 ∧
      (buildRequest config deploymentName startTime endTime).Conditions.map
          MidQueryCondition.Key =
        ["tke_cluster_instance_id", "namespace", "workload_kind", "workload_name"] ∧
      (buildRequest config deploymentName startTime endTime).Conditions.map
          MidQueryCondition.Operator = ["=", "=", "=", "="] ∧
      (buildRequest config deploymentName startTime endTime).Conditions.map
          MidQueryCondition.Value =
        [[config.ClusterID], [config.Namespace], ["Deployment"], [deploymentName]] ∧
      (buildRequest config deploymentName startTime endTime).MetricNames =
        [cpuMetricName, memMetricName] ∧
      (buildRequest config deploymentName startTime endTime).Period = 3600 :=
  fun _ _ _ _ => ⟨rfl, rfl, rfl, rfl, rfl, rfl⟩

/-- A parsed wall-clock time with its fixed zone offset, the observable
content of Go `time.Time` for a time parsed from RFC3339 input. -/
structure DateTime where
  year : Nat
  month : Nat
  day : Nat
  hour : Nat
  minute : Nat
  second : Nat
  offsetMinutes : Int
deriving DecidableEq

/-- Two-digit zero padding, as Go `Format` renders "01".."05" fields
(library behaviour). -/
def pad2 (n : Nat) : String := if n < 10 then "0" ++ toString n else toString n

/-- Four-digit zero padding, as Go `Format` renders the "2006" field
(library behaviour). -/
def pad4 (n : Nat) : String :=
  if n < 10 then "000" ++ toString n
  else if n < 100 then "00" ++ toString n
  else if n < 1000 then "0" ++ toString n
  else toString n

/-- Go `Format("20060102T150405")` on a parsed time: the wall-clock
fields in compact form (library behaviour, modelled on `DateTime`). -/
def formatCompact (t : DateTime) : String :=
  pad4 t.year ++ pad2 t.month ++ pad2 t.day ++ "T" ++
    pad2 t.hour ++ pad2 t.minute ++ pad2 t.second

/-- The output file name built at src/main.go line 95. -/
def outputFilename (config : Config) (startTime endTime : DateTime) : String :=
  "deployments_metrics_" ++ config.Namespace ++ "_" ++ formatCompact startTime ++
    "_to_" ++ formatCompact endTime ++ ".csv"

/-- The CSV header written at src/main.go line 107. -/
def headerRow : List String :=
  ["Namespace", "Deployment", "CPU Usage Max (percent)", "Memory Usage Max (percent)"]

/-- The CSV records written by `main` (src/main.go lines 107-113): the
header, then one row per listed deployment in listing order.  `fetch` stands
for the per-deployment metrics call and `fmtFloat` for Go
`fmt.Sprintf("%f", ·)` rendering of a value. -/
def csvRecords (config : Config) (deployments : List String)
    (fetch : String → ℚ × ℚ) (fmtFloat : ℚ → String) : List (List String) :=
  headerRow ::
    deployments.map (fun name =>
      [config.Namespace, name, fmtFloat (fetch name).1, fmtFloat (fetch name).2])

/-- The configuration of the end-to-end example in the spec (namespace "ns"). -/
def nsConfig : Config :=
  { Region := "ap-guangzhou", ClusterID := "cls-x", Namespace := "ns",
    SecretID := "id", SecretKey := "key" }

/-- 2024-07-18T00:00:00+08:00 as a parsed time. -/
def july18Start : DateTime :=
  { year := 2024, month := 7, day := 18, hour := 0, minute := 0, second := 0,
    offsetMinutes := 480 }

/-- 2024-07-18T13:00:00+08:00 as a parsed time. -/
def july18End : DateTime :=
  { year := 2024, month := 7, day := 18, hour := 13, minute := 0, second := 0,
    offsetMinutes := 480 }

/-- C7: the output file is named
`deployments_metrics_<namespace>_<start>_to_<end>.csv` with both window
timestamps rendered compactly; the first CSV record is the fixed header and
record i+1 is the row of the i-th listed deployment, in listing order. -/
theorem C7_output_layout :
    (∀ (config : Config) (startTime endTime : DateTime),
      outputFilename config startTime endTime =
        "deployments_metrics_" ++ config.Namespace ++ "_" ++
          formatCompact startTime ++ "_to_" ++ formatCompact endTime ++ ".csv") ∧
    (∀ (config : Config) (deployments : List String) (fetch : String → ℚ × ℚ)
        (fmtFloat : ℚ → String),
      (csvRecords config deployments fetch fmtFloat).head? = some headerRow) ∧
    headerRow =
      ["Namespace", "Deployment", "CPU Usage Max (percent)",
       "Memory Usage Max (percent)"] ∧
    (∀ (config : Config) (deployments : List String) (fetch : String → ℚ × ℚ)
        (fmtFloat : ℚ → String),
      (csvRecords config deployments fetch fmtFloat).length = deployments.length + 1) ∧
    (∀ (config : Config) (deployments : List String) (fetch : String → ℚ × ℚ)
        (fmtFloat : ℚ → String) (i : Nat),
      (csvRecords config deployments fetch fmtFloat)[i + 1]? =
        (deployments[i]?).map (fun name =>
          [config.Namespace, name, fmtFloat (fetch name).1, fmtFloat (fetch name).2])) ∧
    outputFilename nsConfig july18Start july18End =
      "deployments_metrics_ns_20240718T000000_to_20240718T130000.csv" := by
  refine ⟨fun _ _ _ => rfl, fun _ _ _ _ => rfl, rfl, ?_, ?_, by decide⟩
  · intro config deployments fetch fmtFloat
    simp [csvRecords]
  · intro config deployments fetch fmtFloat i
    simp [csvRecords]

/-- Gregorian leap-year test, as Go time package computes it
(library behaviour). -/
def isLeapYear (y : Nat) : Bool := y % 4 = 0 && (y % 100 != 0 || y % 400 = 0)

/-- Day count of a month (library behaviour of Go date validation). -/
def daysInMonth (y m : Nat) : Nat :=
  if m = 2 then (if isLeapYear y then 29 else 28)
  else if m = 4 ∨ m = 6 ∨ m = 9 ∨ m = 11 then 30
  else 31

def digitVal (c : Char) : Option Nat :=
  if c.isDigit then some (c.toNat - 48) else none

/-- Read a fixed-width two-digit number. -/
def read2 : List Char → Option (Nat × List Char)
  | a :: b :: rest => do
    let x ← digitVal a
    let y ← digitVal b
    pure (10 * x + y, rest)
  | _ => none

/-- Read a fixed-width four-digit number. -/
def read4 : List Char → Option (Nat × List Char)
  | a :: b :: c :: d :: rest => do
    let x ← digitVal a
    let y ← digitVal b
    let z ← digitVal c
    let w ← digitVal d
    pure (1000 * x + 100 * y + 10 * z + w, rest)
  | _ => none

def expectChar (c : Char) : List Char → Option (List Char)
  | d :: rest => if d = c then some rest else none
  | [] => none

def skipDigits : List Char → List Char
  | c :: rest => if c.isDigit then skipDigits rest else c :: rest
  | [] => []

/-- An optional fractional-second field after the seconds — a '.' or ','
followed by digits — which Go `Parse` consumes and we ignore
(library behaviour). -/
def dropFraction : List Char → List Char
  | c :: d :: rest =>
    if (c = '.' ∨ c = ',') ∧ d.isDigit then skipDigits (d :: rest) else c :: d :: rest
  | l => l

/-- The zone suffix of RFC3339: "Z" for UTC or "±HH:MM", returned in
minutes (library behaviour of Go `Parse` for the "Z07:00" layout). -/
def readOffset : List Char → Option (Int × List Char)
  | [] => none
  | c :: rest =>
    if c = 'Z' then some (0, rest)
    else if c = '+' ∨ c = '-' then do
      let p1 ← read2 rest
      let rest3 ← expectChar ':' p1.2
      let p2 ← read2 rest3
      if p1.1 ≤ 23 ∧ p2.1 ≤ 59 then
        some (if c = '-' then -(p1.1 * 60 + p2.1 : Int) else (p1.1 * 60 + p2.1 : Int), p2.2)
      else none
    else none

/-- Range-check the parsed calendar and clock fields, as Go `Parse`
validates them (library behaviour). -/
def mkDateTime (y mo d h mi s : Nat) (off : Int) : Option DateTime :=
  if 1 ≤ mo ∧ mo ≤ 12 ∧ 1 ≤ d ∧ d ≤ daysInMonth y mo ∧ h ≤ 23 ∧ mi ≤ 59 ∧ s ≤ 59
  then some { year := y, month := mo, day := d, hour := h, minute := mi,
              second := s, offsetMinutes := off }
  else none

/-- Model of Go `time.Parse(time.RFC3339, s)` (library behaviour):
"YYYY-MM-DDTHH:MM:SS", an ignored optional fractional-second field, and a
zone of "Z" or "±HH:MM", with all fields range-checked and no trailing
input allowed. -/
def parseRFC3339 (s : String) : Option DateTime := do
  let (y, r1) ← read4 s.toList
  let r2 ← expectChar '-' r1
  let (mo, r3) ← read2 r2
  let r4 ← expectChar '-' r3
  let (d, r5) ← read2 r4
  let r6 ← expectChar 'T' r5
  let (h, r7) ← read2 r6
  let r8 ← expectChar ':' r7
  let (mi, r9) ← read2 r8
  let r10 ← expectChar ':' r9
  let (sec, r11) ← read2 r10
  let (off, r13) ← readOffset (dropFraction r11)
  match r13 with
  | [] => mkDateTime y mo d h mi sec off
  | _ :: _ => none

/-- The two fatal branches of the window parsing in `main`
(src/main.go lines 67-75): `fatalInvalidStart` models
`klog.Fatalf("Invalid start time: ...")` and `fatalInvalidEnd` models
`klog.Fatalf("Invalid end time: ...")`. -/
inductive WindowResult where
  | ok (startTime endTime : DateTime)
  | fatalInvalidStart
  | fatalInvalidEnd
deriving DecidableEq

/-- The time-window parsing of `main` (src/main.go lines 67-75): parse the
start string, fatally reporting it on failure; then parse the end string,
fatally reporting it on failure; no comparison between the two. -/
def parseWindow (startTimeStr endTimeStr : String) : WindowResult :=
  match parseRFC3339 startTimeStr with
  | none => WindowResult.fatalInvalidStart
  | some startTime =>
    match parseRFC3339 endTimeStr with
    | none => WindowResult.fatalInvalidEnd
    | some endTime => WindowResult.ok startTime endTime

/-- Lexicographic instant key; for two times sharing a zone offset it orders
their instants. -/
def wallClockKey (t : DateTime) : Nat :=
  ((((t.year * 13 + t.month) * 32 + t.day) * 24 + t.hour) * 60 + t.minute) * 60 + t.second

lemma parseWindow_cases (s e : String) :
    parseWindow s e =
      match parseRFC3339 s, parseRFC3339 e with
      | none, _ => WindowResult.fatalInvalidStart
      | some _, none => WindowResult.fatalInvalidEnd
      | some st, some en => WindowResult.ok st en := by
  unfold parseWindow
  rcases parseRFC3339 s with _ | st
  · rfl
  · rcases parseRFC3339 e with _ | en <;> rfl

/-- C8: the window parser accepts exactly the pairs whose two strings each
parse under the fixed RFC3339 format, failing on the first string that does
not parse and naming it; there is no cross-field validation — a concrete
window whose end precedes its start (same zone offset) is accepted. -/
theorem C8_window_accepts_each_parse :
    (∀ startStr endStr : String,
      (∃ st en, parseWindow startStr endStr = WindowResult.ok st en) ↔
        ((parseRFC3339 startStr).isSome ∧ (parseRFC3339 endStr).isSome)) ∧
    (∀ startStr endStr : String,
      parseWindow startStr endStr = WindowResult.fatalInvalidStart ↔
        parseRFC3339 startStr = none) ∧
    (∀ startStr endStr : String,
      parseWindow startStr endStr = WindowResult.fatalInvalidEnd ↔
        ((parseRFC3339 startStr).isSome ∧ parseRFC3339 endStr = none)) ∧
    (∃ st en,
      parseWindow "2024-07-18T13:00:00+08:00" "2024-07-18T00:00:00+08:00" =
        WindowResult.ok st en ∧
      en.offsetMinutes = st.offsetMinutes ∧ wallClockKey en < wallClockKey st) := by
  refine ⟨?_, ?_, ?_, ?_⟩
  · intro s e
    rw [parseWindow_cases]
    rcases parseRFC3339 s with _ | st <;> rcases parseRFC3339 e with _ | en <;> simp
  · intro s e
    rw [parseWindow_cases]
    rcases parseRFC3339 s with _ | st <;> rcases parseRFC3339 e with _ | en <;> simp
  · intro s e
    rw [parseWindow_cases]
    rcases parseRFC3339 s with _ | st <;> rcases parseRFC3339 e with _ | en <;> simp
  · exact ⟨july18End, july18Start, by decide, by decide, by decide⟩

end TkeMetrics
